import Mathlib

/-!
Verification development for the `python-worker` translation pipeline
(`src/bull_worker.py`, `src/preprocessor/text_processor.py`,
`src/services/ollama_service.py`, `src/services/cache_service.py`,
`src/services/cache_service_grpc.py`).

Texts are modelled as `List Char`.  Each Python `re.sub` call of the
preprocessor uses a fixed concrete pattern; every such call is embedded as a
dedicated scanner implementing exactly that pattern's leftmost,
non-overlapping, greedy substitution semantics.  Python's Unicode `\w` class
is restricted to the character repertoire this code base manipulates (ASCII
alphanumerics, underscore, Hangul compatibility jamo and Hangul syllables);
`\s` and `str.strip` use the ASCII whitespace characters.  Inputs are assumed
newline-free, so `$` in `re.match` patterns is plain end-of-string.

External capabilities (PyKoSpacing, symspellpy-ko, kss, langdetect, Redis,
HTTP and gRPC transports) are modelled as explicit function parameters;
fallible calls return `Option`/`Except`.
-/

set_option maxRecDepth 40000

namespace ChatWorker

abbrev Str := List Char

/-- Hangul syllables 가..힣 (U+AC00..U+D7A3), the Python regex class `[가-힣]`. -/
def isHangulSyl (c : Char) : Bool :=
  0xAC00 ≤ c.toNat && c.toNat ≤ 0xD7A3

/-- Hangul compatibility jamo ㄱ..ㅎㅏ..ㅣ (U+3131..U+3163), the class `[ㄱ-ㅎㅏ-ㅣ]`. -/
def isJamo (c : Char) : Bool :=
  0x3131 ≤ c.toNat && c.toNat ≤ 0x3163

/-- ASCII whitespace, modelling Python `\s` / `str.strip` on the texts used here. -/
def isSpaceChar (c : Char) : Bool :=
  c = ' ' || c = '\t' || c = '\n' || c = '\r' || c = '\x0b' || c = '\x0c'

/-- Python `\w` restricted to the repertoire this code manipulates. -/
def isWordChar (c : Char) : Bool :=
  c.isAlphanum || c = '_' || isHangulSyl c || isJamo c

/-- Drop leading characters satisfying `p`. -/
def stripLeading (p : Char → Bool) : Str → Str
  | [] => []
  | c :: cs => if p c then stripLeading p cs else c :: cs

/-- Python `str.strip()`: remove whitespace from both ends. -/
def pyStrip (cs : Str) : Str :=
  ((stripLeading isSpaceChar ((stripLeading isSpaceChar cs).reverse)).reverse)

/-- Does `pat` occur as a prefix of `cs`? -/
def startsWithL : Str → Str → Bool
  | [], _ => true
  | _ :: _, [] => false
  | p :: ps, c :: cs => p = c && startsWithL ps cs

/-- Does `pat` occur as a contiguous substring of `cs`? -/
def containsSub (pat : Str) : Str → Bool
  | [] => startsWithL pat []
  | c :: cs => startsWithL pat (c :: cs) || containsSub pat cs

/-- Suffix after the first `'>'`, if any: the tail of a `<[^>]+>` match. -/
def findCloseAngle : Str → Option Str
  | [] => none
  | c :: cs => if c = '>' then some cs else findCloseAngle cs

/-- Scanner for `re.sub(r'<[^>]+>', '', text)`. -/
def removeHtmlGo : Nat → Str → Str
  | 0, cs => cs
  | _ + 1, [] => []
  | fuel + 1, c :: cs =>
    if c = '<' then
      match cs with
      | [] => [c]
      | d :: ds =>
        if d = '>' then c :: removeHtmlGo fuel cs
        else
          match findCloseAngle ds with
          | some rest => removeHtmlGo fuel rest
          | none => c :: removeHtmlGo fuel cs
    else c :: removeHtmlGo fuel cs

/-- `TextPreprocessor.remove_html`: `re.sub(r'<[^>]+>', '', text)`. -/
def remove_html (cs : Str) : Str := removeHtmlGo (cs.length + 1) cs

/-- After at least one digit: more digits then `')'`; returns the suffix. -/
def digitsThenParen : Str → Option Str
  | [] => none
  | c :: cs => if c.isDigit then digitsThenParen cs else if c = ')' then some cs else none

/-- Scanner for `re.sub(r'\(\d+\)', '', text)`. -/
def removeParenNumGo : Nat → Str → Str
  | 0, cs => cs
  | _ + 1, [] => []
  | fuel + 1, c :: cs =>
    if c = '(' then
      match cs with
      | [] => [c]
      | d :: ds =>
        if d.isDigit then
          match digitsThenParen ds with
          | some rest => removeParenNumGo fuel rest
          | none => c :: removeParenNumGo fuel cs
        else c :: removeParenNumGo fuel cs
    else c :: removeParenNumGo fuel cs

/-- Suffix after the first `']'`, if any: the tail of a `\[[^\]]+\]` match. -/
def findCloseBracket : Str → Option Str
  | [] => none
  | c :: cs => if c = ']' then some cs else findCloseBracket cs

/-- Scanner for `re.sub(r'\[[^\]]+\]', '', text)`. -/
def removeBracketTagGo : Nat → Str → Str
  | 0, cs => cs
  | _ + 1, [] => []
  | fuel + 1, c :: cs =>
    if c = '[' then
      match cs with
      | [] => [c]
      | d :: ds =>
        if d = ']' then c :: removeBracketTagGo fuel cs
        else
          match findCloseBracket ds with
          | some rest => removeBracketTagGo fuel rest
          | none => c :: removeBracketTagGo fuel cs
    else c :: removeBracketTagGo fuel cs

/-- `TextPreprocessor.remove_special_patterns`: strip `(\d+)` then `[...]` groups, then strip. -/
def remove_special_patterns (cs : Str) : Str :=
  let t1 := removeParenNumGo (cs.length + 1) cs
  let t2 := removeBracketTagGo (t1.length + 1) t1
  pyStrip t2

/-- Length of the run of copies of `c` at the head of the list. -/
def runLength (c : Char) : Str → Nat
  | [] => 0
  | d :: ds => if d = c then runLength c ds + 1 else 0

/-- Drop the run of copies of `c` at the head of the list. -/
def dropRun (c : Char) : Str → Str
  | [] => []
  | d :: ds => if d = c then dropRun c ds else d :: ds

/-- Scanner for `re.sub(r'(X)\1{m-1,}', X * keep, text)` style rules: a maximal
run of one character satisfying `p`, of length at least `minLen`, is replaced
by `keepLen` copies. -/
def collapseRunsGo (p : Char → Bool) (minLen keepLen : Nat) : Nat → Str → Str
  | 0, cs => cs
  | _ + 1, [] => []
  | fuel + 1, c :: cs =>
    let n := runLength c cs + 1
    if p c && decide (minLen ≤ n) then
      List.replicate keepLen c ++ collapseRunsGo p minLen keepLen fuel (dropRun c cs)
    else c :: collapseRunsGo p minLen keepLen fuel cs

def collapseRuns (p : Char → Bool) (minLen keepLen : Nat) (cs : Str) : Str :=
  collapseRunsGo p minLen keepLen (cs.length + 1) cs

/-- Drop leading repetitions of the two-character token `[a, b]`. -/
def dropPairRun (a b : Char) : Nat → Str → Str
  | 0, cs => cs
  | fuel + 1, cs =>
    match cs with
    | x :: y :: rest => if x = a && y = b then dropPairRun a b fuel rest else cs
    | _ => cs

/-- Scanner for `re.sub(r'(ab)+', "r1r2", text)`: a maximal run of the pair
`[a, b]` is replaced by the two characters `[r1, r2]`. -/
def pairRunSubGo (a b r1 r2 : Char) : Nat → Str → Str
  | 0, cs => cs
  | _ + 1, [] => []
  | fuel + 1, x :: cs =>
    match cs with
    | [] => [x]
    | y :: rest =>
      if x = a && y = b then
        r1 :: r2 :: pairRunSubGo a b r1 r2 fuel (dropPairRun a b (rest.length + 1) rest)
      else x :: pairRunSubGo a b r1 r2 fuel cs

def pairRunSub (a b r1 r2 : Char) (cs : Str) : Str :=
  pairRunSubGo a b r1 r2 (cs.length + 1) cs

/-- Length of the maximal prefix of Hangul syllables. -/
def sylRunLength : Str → Nat
  | [] => 0
  | c :: cs => if isHangulSyl c then sylRunLength cs + 1 else 0

/-- Number of leading copies of the (non-empty) token `tok`. -/
def countCopies (tok : Str) : Nat → Str → Nat
  | 0, _ => 0
  | fuel + 1, cs =>
    if !tok.isEmpty && startsWithL tok cs then
      countCopies tok fuel (cs.drop tok.length) + 1
    else 0

/-- Backtracking search for `([가-힣]{2,})\1{2,}` at the head of `cs`: the
greedy group tries token lengths from `k` down to `2`; the first length whose
token is followed by at least two more copies wins, returning the token length
and the (greedy, maximal) number of extra copies. -/
def findTokenRep (cs : Str) : Nat → Option (Nat × Nat)
  | 0 => none
  | 1 => none
  | k + 2 =>
    let m := countCopies (cs.take (k + 2)) (cs.length + 1) (cs.drop (k + 2))
    if 2 ≤ m then some (k + 2, m) else findTokenRep cs (k + 1)

/-- Scanner for `re.sub(r'([가-힣]{2,})\1{2,}', r'\1\1', text)`. -/
def tokenRepSubGo : Nat → Str → Str
  | 0, cs => cs
  | _ + 1, [] => []
  | fuel + 1, c :: cs =>
    let whole := c :: cs
    match findTokenRep whole (sylRunLength whole) with
    | some (k, m) =>
      whole.take k ++ whole.take k ++ tokenRepSubGo fuel (whole.drop (k + m * k))
    | none => c :: tokenRepSubGo fuel cs

def tokenRepSub (cs : Str) : Str := tokenRepSubGo (cs.length + 1) cs

/-- `TextPreprocessor.normalize_repeats`: the seven `re.sub` rules in source order. -/
def normalize_repeats (t0 : Str) : Str :=
  let t1 := pairRunSub 'ㅋ' 'ㅌ' 'ㅋ' 'ㅋ' t0
  let t2 := pairRunSub 'ㅎ' 'ㅌ' 'ㅎ' 'ㅎ' t1
  let t3 := pairRunSub 'ㅋ' 'ㅎ' 'ㅋ' 'ㅋ' t2
  let t4 := collapseRuns isJamo 3 2 t3
  let t5 := collapseRuns (fun c => c = '!' || c = '?') 3 2 t4
  let t6 := collapseRuns (fun c => c = '.') 4 3 t5
  let t7 := collapseRuns (fun c => c = '~') 3 2 t6
  let t8 := tokenRepSub t7
  let t9 := collapseRuns isHangulSyl 4 2 t8
  let t10 := collapseRuns (fun c => c.isAlpha) 4 2 t9
  collapseRuns (fun c => c.isDigit) 4 2 t10

/-- Suffix after the first `'/'`, if any: the tail of a `/[^/]+/` match. -/
def findSlash : Str → Option Str
  | [] => none
  | c :: cs => if c = '/' then some cs else findSlash cs

/-- Scanner for `re.sub(r'/[^/]+/', '', text)`. -/
def removeEmoGo : Nat → Str → Str
  | 0, cs => cs
  | _ + 1, [] => []
  | fuel + 1, c :: cs =>
    if c = '/' then
      match cs with
      | [] => [c]
      | d :: ds =>
        if d = '/' then c :: removeEmoGo fuel cs
        else
          match findSlash ds with
          | some rest => removeEmoGo fuel rest
          | none => c :: removeEmoGo fuel cs
    else c :: removeEmoGo fuel cs

/-- `TextPreprocessor.remove_emoticons`: `re.sub(r'/[^/]+/', '', text)`. -/
def remove_emoticons (cs : Str) : Str := removeEmoGo (cs.length + 1) cs

/-- `\b` holds before a word character when the previous character (if any) is
not a word character. -/
def isBoundaryBefore : Option Char → Bool
  | none => true
  | some c => !isWordChar c

/-- `\b` holds after a word character when the next character (if any) is not a
word character. -/
def isBoundaryAfter : Str → Bool
  | [] => true
  | c :: _ => !isWordChar c

/-- Last character of `cs`, or `d` when `cs` is empty. -/
def lastChar (cs : Str) (d : Char) : Char :=
  match cs.getLast? with
  | some c => c
  | none => d

/-- Scanner for `re.sub(rf'\b{pat}\b', rep, text)` where `pat` consists of word
characters only (as every dictionary key here does).  Matching proceeds over
the original text; `prev` is the original character before the current
position. -/
def subWBGo (pat rep : Str) : Nat → Option Char → Str → Str
  | 0, _, cs => cs
  | _ + 1, _, [] => []
  | fuel + 1, prev, c :: cs =>
    let whole := c :: cs
    if !pat.isEmpty && isBoundaryBefore prev && startsWithL pat whole
        && isBoundaryAfter (whole.drop pat.length) then
      rep ++ subWBGo pat rep fuel (some (lastChar pat c)) (whole.drop pat.length)
    else c :: subWBGo pat rep fuel (some c) cs

def subWB (pat rep cs : Str) : Str := subWBGo pat rep (cs.length + 1) none cs

/-- Scanner for `re.sub(pat, rep, text)` where `pat` is a plain literal. -/
def subLitGo (pat rep : Str) : Nat → Str → Str
  | 0, cs => cs
  | _ + 1, [] => []
  | fuel + 1, c :: cs =>
    let whole := c :: cs
    if !pat.isEmpty && startsWithL pat whole then
      rep ++ subLitGo pat rep fuel (whole.drop pat.length)
    else c :: subLitGo pat rep fuel cs

def subLit (pat rep cs : Str) : Str := subLitGo pat rep (cs.length + 1) cs

/-- Scanner for `re.sub(r'\s+', ' ', text)`. -/
def collapseWsGo : Nat → Str → Str
  | 0, cs => cs
  | _ + 1, [] => []
  | fuel + 1, c :: cs =>
    if isSpaceChar c then ' ' :: collapseWsGo fuel (stripLeading isSpaceChar cs)
    else c :: collapseWsGo fuel cs

def collapseWs (cs : Str) : Str := collapseWsGo (cs.length + 1) cs

/-- `TextPreprocessor.CONSONANT_ABBR`, in source (dict insertion) order. -/
def CONSONANT_ABBR : List (Str × Str) :=
  [ ( "ㅎㅇ".data, "하이".data ),
    ( "ㅂㅂ".data, "바이바이".data ),
    ( "ㅂㅇ".data, "바이".data ),
    ( "ㅌㅌ".data, "도망가".data ),
    ( "ㅇㅈ".data, "인정".data ),
    ( "ㅁㅊ".data, "미쳤어".data ),
    ( "ㄷㄷ".data, "떨어".data ),
    ( "ㅜㅜ".data, "흑흑".data ),
    ( "ㅠㅠ".data, "흑흑".data ),
    ( "ㄲㅂ".data, "아깝다".data ),
    ( "ㅅㄱ".data, "수고".data ),
    ( "ㅇㅋ".data, "오케이".data ),
    ( "ㄱㅊ".data, "괜찮아".data ),
    ( "ㄱㅅ".data, "감사".data ),
    ( "ㄴㄴ".data, "노노".data ),
    ( "ㅈㅅ".data, "죄송".data ),
    ( "ㅁㄹ".data, "모르겠어".data ),
    ( "ㅋㅋ".data, "하하".data ),
    ( "ㅎㅎ".data, "하하".data ),
    ( "ㄲㅈ".data, "꺾여".data ),
    ( "ㅈㅈ".data, "굿 게임".data ),
    ( "ㄱㄱ".data, "고고".data ),
    ( "ㅅㅅ".data, "ㅅㅅ".data ),
    ( "ㅂㅌ".data, "배틀".data ),
    ( "ㄹㅇ".data, "진짜".data ),
    ( "ㅈㄴ".data, "진짜".data ),
    ( "ㅇㄱㄹㅇ".data, "이거 진짜".data ),
    ( "ㄹㅈㄷ".data, "레전드".data ),
    ( "ㅍㅇㅌ".data, "파이팅".data ) ]

/-- `TextPreprocessor.SLANG_DICT`, in source (dict insertion) order. -/
def SLANG_DICT : List (Str × Str) :=
  [ ( "ㄹㅈㄷ".data, "레전드".data ),
    ( "ㅈㄱㄴ".data, "지금".data ),
    ( "레게노".data, "레전드".data ),
    ( "갓".data, "최고".data ),
    ( "고트".data, "최고".data ),
    ( "핵".data, "엄청".data ),
    ( "졸라".data, "엄청".data ),
    ( "개꿀".data, "엄청 좋은".data ),
    ( "꿀잼".data, "재미있어".data ),
    ( "노잼".data, "재미없어".data ),
    ( "띵작".data, "명작".data ),
    ( "명작".data, "최고작품".data ),
    ( "갓작".data, "최고작품".data ),
    ( "빡침".data, "화남".data ),
    ( "개빡침".data, "엄청 화남".data ),
    ( "별로".data, "그냥 그래".data ),
    ( "개별로".data, "정말 안좋아".data ),
    ( "좋아욥".data, "좋아요".data ),
    ( "좋아염".data, "좋아요".data ),
    ( "나쁘지않음".data, "나쁘지않아요".data ),
    ( "웃김".data, "웃겨요".data ),
    ( "웃기네".data, "웃겨요".data ),
    ( "인정함".data, "인정해요".data ),
    ( "쩔수지".data, "어쩔수없지".data ),
    ( "쩔수".data, "어쩔수없지".data ),
    ( "까비지".data, "아깝다".data ),
    ( "까비".data, "아깝다".data ),
    ( "쩔지".data, "대단하지".data ),
    ( "ㅇㅇ".data, "응".data ),
    ( "ㄴㄴ".data, "아니".data ),
    ( "굿".data, "좋아".data ),
    ( "베드".data, "나빠".data ),
    ( "나이스".data, "좋아".data ),
    ( "오케이".data, "괜찮아".data ),
    ( "베리".data, "매우".data ),
    ( "베리굿".data, "아주좋아".data ) ]

/-- `TextPreprocessor.TYPO_PATTERNS`, in source order; the `\b...\b` wrappers of
the keys are supplied by `subWB`. -/
def TYPO_PATTERNS : List (Str × Str) :=
  [ ( "됬어요".data, "됐어요".data ),
    ( "됬습니다".data, "됐습니다".data ),
    ( "됬네요".data, "됐네요".data ),
    ( "됬다".data, "됐다".data ),
    ( "됬어".data, "됐어".data ),
    ( "되요".data, "돼요".data ),
    ( "되세요".data, "돼세요".data ),
    ( "안되요".data, "안 돼요".data ),
    ( "안돼요".data, "안 돼요".data ),
    ( "할려고".data, "하려고".data ),
    ( "할려면".data, "하려면".data ),
    ( "할려".data, "하려".data ),
    ( "왠만".data, "웬만".data ),
    ( "왠일".data, "웬일".data ) ]

/-- `TextPreprocessor.SPACING_PROTECT_PATTERNS`: plain literal patterns. -/
def SPACING_PROTECT_PATTERNS : List (Str × Str) :=
  [ ( "오늘 날씨".data, "오늘날씨".data ),
    ( "어제 날씨".data, "어제날씨".data ) ]

/-- `re.match(r'^[^\w가-힣]+$', text)` as a predicate (no newline in inputs):
the text is non-empty and consists only of non-word characters. -/
def onlySpecialChars (t : Str) : Bool :=
  !t.isEmpty && t.all (fun c => !isWordChar c)

/-- `re.match(r'^[ㄱ-ㅎㅏ-ㅣ\s]+$', text)` as a predicate. -/
def onlyJamoOrSpace (t : Str) : Bool :=
  !t.isEmpty && t.all (fun c => isJamo c || isSpaceChar c)

/-- `TextPreprocessor.should_filter` (defined in the source; `preprocess` does
not call it). -/
def should_filter (text : Str) : Bool × Option String :=
  if (pyStrip text).length ≤ 1 then (true, some "Too short")
  else if onlySpecialChars text then (true, some "Only special characters")
  else if onlyJamoOrSpace text then (true, some "Only consonants/vowels")
  else (false, none)

/-- `TextPreprocessor.expand_abbreviations`: one word-bounded `re.sub` per
`CONSONANT_ABBR` entry, in order. -/
def expand_abbreviations (cs : Str) : Str :=
  CONSONANT_ABBR.foldl (fun t p => subWB p.1 p.2 t) cs

/-- `TextPreprocessor.expand_slang`: one word-bounded `re.sub` per `SLANG_DICT`
entry, in order, then `str.strip()`. -/
def expand_slang (cs : Str) : Str :=
  pyStrip (SLANG_DICT.foldl (fun t p => subWB p.1 p.2 t) cs)

/-- One alternative of the compiled profanity regex matching at the current
position: returns the matched length.  Alternatives are tried in source order;
the first two are word-bounded (`\bㅅㅂ\b`, `\bㅂㅅ\b`), the rest are literals. -/
def profMatchLen (prev : Option Char) (cs : Str) : Option Nat :=
  let wbAt := fun (pat : Str) =>
    isBoundaryBefore prev && startsWithL pat cs && isBoundaryAfter (cs.drop pat.length)
  if wbAt "ㅅㅂ".data then some 2
  else if wbAt "ㅂㅅ".data then some 2
  else if startsWithL "시발".data cs then some 2
  else if startsWithL "씨발".data cs then some 2
  else if startsWithL "병신".data cs then some 2
  else if startsWithL "ㅈ같".data cs then some 2
  else if startsWithL "ㅆ발".data cs then some 2
  else if startsWithL "ㅂ신".data cs then some 2
  else none

/-- Scanner for `self.profanity_regex.sub('***', text)`. -/
def filterProfGo : Nat → Option Char → Str → Str
  | 0, _, cs => cs
  | _ + 1, _, [] => []
  | fuel + 1, prev, c :: cs =>
    let whole := c :: cs
    match profMatchLen prev whole with
    | some n =>
      '*' :: '*' :: '*' :: filterProfGo fuel (some (lastChar (whole.take n) c)) (whole.drop n)
    | none => c :: filterProfGo fuel (some c) cs

/-- `TextPreprocessor.filter_profanity`. -/
def filter_profanity (cs : Str) : Str := filterProfGo (cs.length + 1) none cs

/-- Python `str.split()`: split on whitespace runs, dropping empty words. -/
def splitWsGo : Nat → Str → List Str
  | 0, _ => []
  | _ + 1, [] => []
  | fuel + 1, c :: cs =>
    if isSpaceChar c then splitWsGo fuel cs
    else
      (c :: cs).takeWhile (fun d => !isSpaceChar d)
        :: splitWsGo fuel ((c :: cs).dropWhile (fun d => !isSpaceChar d))

def splitWs (cs : Str) : List Str := splitWsGo (cs.length + 1) cs

/-- `sep.join(parts)`. -/
def joinSep (sep : Str) : List Str → Str
  | [] => []
  | [x] => x
  | x :: xs => x ++ sep ++ joinSep sep xs

/-- `TextPreprocessor.fix_typos`.  The symspellpy-ko per-word lookup (applied
to each whitespace-separated word containing a Hangul syllable) is the
external parameter `symWord`; `none` models `self.sym_spell` being
unavailable.  The fixed `TYPO_PATTERNS` pass always runs afterwards. -/
def fix_typos (symWord : Option (Str → Str)) (text : Str) : Str :=
  let text :=
    match symWord with
    | some f =>
      joinSep [' ']
        ((splitWs text).map (fun w => if w.any (fun c => isHangulSyl c) then f w else w))
    | none => text
  TYPO_PATTERNS.foldl (fun t p => subWB p.1 p.2 t) text

/-- `TextPreprocessor.add_spacing`.  The PyKoSpacing model is the external
parameter `spacingModel`; `none` models `self.spacing_model` being
unavailable, in which case the text is returned unchanged.  After the model
runs, every `SPACING_PROTECT_PATTERNS` pair is re-joined. -/
def add_spacing (spacingModel : Option (Str → Str)) (text : Str) : Str :=
  match spacingModel with
  | none => text
  | some m =>
    let t := m text
    SPACING_PROTECT_PATTERNS.foldl (fun t p => subLit p.1 p.2 t) t

/-- External kss capabilities used by `preprocess`: `kss.correct_spacing` and
`kss.split_sentences` (`none` models the latter raising, in which case the
source falls back to the unsegmented text). -/
structure KssHooks where
  correctSpacing : Str → Str
  splitSentences : Str → Option (List Str)

/-- The length guard of `preprocess` step 2, exactly as written in the source:
`if 50 < len(text.strip()) < 1`, i.e. the chained comparison
`50 < n and n < 1`. -/
def tooShortOrLong (text : Str) : Bool :=
  50 < (pyStrip text).length && (pyStrip text).length < 1

/-- `TextPreprocessor.preprocess`: the full pipeline, stage for stage in source
order.  The `fixTyposFlag` parameter is accepted but unused because the
source's stage 7 (`if fix_typos: text = self.fix_typos(text)`) is commented
out; the spacing stage calls `kss.correct_spacing` directly (the
`self.add_spacing` call is commented out). -/
def preprocess (hooks : KssHooks)
    (expandAbbrev filterProf normRepeats removeEmo fixTyposFlag addSpacingFlag : Bool)
    (text0 : Str) : Str × Bool × Option String :=
  let text := remove_html text0
  if tooShortOrLong text then (text, true, some "Too short or long")
  else if onlySpecialChars text then (text, true, some "Only special characters")
  else
    let text := remove_special_patterns text
    let text := if normRepeats then normalize_repeats text else text
    let text := if removeEmo then remove_emoticons text else text
    let text := if expandAbbrev then expand_slang (expand_abbreviations text) else text
    let text := if addSpacingFlag then hooks.correctSpacing text else text
    let text := if filterProf then filter_profanity text else text
    let text := pyStrip (collapseWs text)
    if text.length < 1 then (text, true, some "Too short after preprocessing")
    else
      match hooks.splitSentences text with
      | some sents => (joinSep "|||".data sents, false, none)
      | none => (text, false, none)

/-- Identity external hooks: spacing returns its input, segmentation yields a
single sentence. -/
def idHooks : KssHooks := ⟨fun t => t, fun t => some [t]⟩

/-- Python dict assignment `d[k] = v`: update in place if the key exists
(keeping its position), else append. -/
def dictInsert : List (String × String) → String → String → List (String × String)
  | [], k, v => [(k, v)]
  | (k1, v1) :: rest, k, v =>
    if k1 = k then (k, v) :: rest else (k1, v1) :: dictInsert rest k v

/-- Key membership in the dict model. -/
def hasKey (d : List (String × String)) (k : String) : Bool :=
  d.any (fun p => p.1 = k)

/-- One iteration of the `OllamaService.translate` loop.  The per-language
HTTP call `self._translate_single` is the external parameter `single`; an
exception is an `Except.error` carrying `str(e)`.  A failure for one language
is recorded as the visible marker `"[Translation Error: {e}]"` under that
language's key. -/
def OllamaService.step (single : String → Except String String)
    (tr : List (String × String)) (lang : String) : List (String × String) :=
  match single lang with
  | .ok t => dictInsert tr lang t
  | .error e => dictInsert tr lang ("[Translation Error: " ++ e ++ "]")

/-- `OllamaService.translate`: per-language fan-out, returning the
translations dict. -/
def OllamaService.translate (single : String → Except String String)
    (targetLanguages : List String) : List (String × String) :=
  targetLanguages.foldl (OllamaService.step single) []

/-- Result accumulator of `CacheService.translate`: the translations dict and
the three timing variables, initialised to `-1.0` (modelled as the integer
`-1`; the floats are sentinel values that are never computed with). -/
structure CacheAcc where
  translations : List (String × String)
  procMs : Int
  llmMs : Int
  cacheHitMs : Int
  deriving DecidableEq

/-- One iteration of the `CacheService.translate` loop: on success all three
timing variables are overwritten from this call; on an exception the previous
values are kept and the error marker is stored under the language key. -/
def CacheService.step (single : String → Except String (String × Int × Int × Int))
    (acc : CacheAcc) (lang : String) : CacheAcc :=
  match single lang with
  | .ok (t, p, l, c) => ⟨dictInsert acc.translations lang t, p, l, c⟩
  | .error e =>
    { acc with
      translations := dictInsert acc.translations lang ("[Translation Error: " ++ e ++ "]") }

/-- `CacheService.translate`: per-language fan-out over `single` (the external
HTTP call `self._translate_single`), returning the dict together with the
last-written timing triple. -/
def CacheService.translate (single : String → Except String (String × Int × Int × Int))
    (targetLanguages : List String) : CacheAcc :=
  targetLanguages.foldl (CacheService.step single) ⟨[], -1, -1, -1⟩

/-- Outcome of one `CacheServiceGRPC._translate_single` call: success with
translation and timings, a `grpc.RpcError` (code name and details), or any
other exception (type name and message). -/
inductive GrpcOutcome where
  | ok (translation : String) (procMs llmMs cacheMs : Int)
  | rpcError (codeName details : String)
  | exn (typeName msg : String)

/-- Did the per-language call fail? -/
def GrpcOutcome.isFail : GrpcOutcome → Bool
  | .ok _ _ _ _ => false
  | .rpcError _ _ => true
  | .exn _ _ => true

/-- Loop state of `CacheServiceGRPC.translate`: translations dict, accumulated
error strings, and the three timing variables initialised to `-1.0`. -/
structure GrpcAcc where
  translations : List (String × String)
  errors : List String
  procMs : Int
  llmMs : Int
  cacheHitMs : Int

/-- One iteration of the `CacheServiceGRPC.translate` loop. -/
def CacheServiceGRPC.step (single : String → GrpcOutcome)
    (acc : GrpcAcc) (lang : String) : GrpcAcc :=
  match single lang with
  | .ok t p l c => ⟨dictInsert acc.translations lang t, acc.errors, p, l, c⟩
  | .rpcError code details =>
    { acc with
      translations := dictInsert acc.translations lang ("[gRPC Error: " ++ code ++ "]"),
      errors := acc.errors ++ [lang ++ ": gRPC error [" ++ code ++ "]: " ++ details] }
  | .exn ty msg =>
    { acc with
      translations := dictInsert acc.translations lang ("[Error: " ++ ty ++ "]"),
      errors := acc.errors ++ [lang ++ ": " ++ ty ++ ": " ++ msg] }

/-- `"; ".join(errors)`. -/
def joinSemicolon : List String → String
  | [] => ""
  | [x] => x
  | x :: xs => x ++ "; " ++ joinSemicolon xs

/-- `CacheServiceGRPC.translate`: per-language fan-out; after the loop, if the
number of accumulated errors equals the number of requested target languages
the call raises `Exception("All translations failed: ...")`, otherwise it
returns the dict and timings. -/
def CacheServiceGRPC.translate (single : String → GrpcOutcome)
    (targetLanguages : List String) : Except String GrpcAcc :=
  let acc := targetLanguages.foldl (CacheServiceGRPC.step single) ⟨[], [], -1, -1, -1⟩
  if acc.errors.length = targetLanguages.length then
    .error ("All translations failed: " ++ joinSemicolon acc.errors)
  else .ok acc

/-- The fields of `TranslationResult` (`src/models.py`) that the worker
constructs; `processing_time` is wall-clock and is omitted. -/
structure TranslationResultM where
  id : String
  originalText : Str
  preprocessedText : Str
  translations : List (String × String)
  detectedLanguage : String
  filtered : Bool
  filterReason : Option String
  deriving DecidableEq

/-- A message sent over `redis_conn.publish`. -/
structure PubMsg where
  channel : String
  jobId : String
  result : Option TranslationResultM
  status : String
  deriving DecidableEq

/-- The Redis state touched by one queue: the `bull:{q}:wait` list, the
`bull:{q}:active` list, and the pub/sub messages published so far. -/
structure RedisState where
  waiting : List String
  active : List String
  published : List PubMsg
  deriving DecidableEq

/-- `redis_conn.brpoplpush(wait_key, active_key, timeout)` (the claim step of
`get_waiting_jobs`): atomically pop the rightmost waiting id and push it onto
the left of the active list; `none` models a timeout on an empty list. -/
def brpoplpush (s : RedisState) : Option (String × RedisState) :=
  match s.waiting.getLast? with
  | none => none
  | some j => some (j, { s with waiting := s.waiting.dropLast, active := j :: s.active })

/-- `complete_job` (`bull_worker.py:217`): publishes the completion event on
the constant channel and does nothing else — in particular the active list is
not touched (the `lrem` code is commented out in the source). -/
def complete_job (s : RedisState) (queueName jobId : String)
    (result : Option TranslationResultM) : RedisState :=
  { s with
    published := s.published ++ [⟨ "bull:translation-results:jobId", jobId, result, "completed" ⟩] }

/-- The exception raised by `fail_job`: its body evaluates the undefined name
`null` (`json.dumps({..., 'result': null, ...})`), so the call raises
`NameError` before publishing anything or touching any Redis key. -/
def nameErrorNull : String := "NameError: name null is not defined"

/-- `fail_job` (`bull_worker.py:245`): always raises `NameError` (the Python
body references the undefined name `null`). -/
def fail_job (s : RedisState) (queueName jobId error : String) : Except String RedisState :=
  Except.error nameErrorNull

/-- Raw job payload (the JSON string stored under the job hash's `data`
field). -/
abbrev JobData := String

/-- Outcome of `process_bull_job` as seen by `worker_task`: a result dict,
`None` (returned when `TranslationJob(**job_data)` parsing or preprocessing
fails), or an exception propagating out. -/
inductive ProcOutcome where
  | ok (r : TranslationResultM)
  | parseFailed
  | raised (e : String)

/-- One iteration of the `worker_task` job loop (`bull_worker.py:299-318`),
after a job id has been claimed.  `fetched` is the result of `get_job_data`
(`none` for missing or undecodable payload) and `proc` the outcome of
`process_bull_job`.  `Except.error` means the exception escaped the loop body
and the worker loop terminates. -/
def worker_iteration (s : RedisState) (queueName jobId : String)
    (fetched : Option JobData) (proc : ProcOutcome) : Except String RedisState :=
  match fetched with
  | none =>
    -- `fail_job` raises NameError inside the try block; the except handler
    -- calls `fail_job` again, which raises NameError once more, and that
    -- exception propagates out of the for loop.
    match fail_job s queueName jobId "Failed to get job data" with
    | .ok s1 => .ok s1
    | .error e =>
      match fail_job s queueName jobId e with
      | .ok s2 => .ok s2
      | .error e2 => .error e2
  | some _ =>
    match proc with
    | .ok r => .ok (complete_job s queueName jobId (some r))
    | .parseFailed =>
      -- `process_bull_job` returned None; `worker_task` does not check for it
      -- and publishes a completion event with result null.
      .ok (complete_job s queueName jobId none)
    | .raised e =>
      match fail_job s queueName jobId e with
      | .ok s1 => .ok s1
      | .error e2 => .error e2

/-- The parsed fields of a `TranslationJob` that `process_bull_job` uses. -/
structure TranslationJobM where
  id : String
  text : Str
  targetLanguages : List String

/-- `process_bull_job` (`bull_worker.py:62-169`) on a successfully parsed job:
preprocess, then — only when not filtered — detect the language (`none` from
the external detector falls back to `"ko"`) and call the translation
service.  The returned flag records whether the translation service was
called. -/
def process_bull_job (hooks : KssHooks) (detectLang : Str → Option String)
    (expandAbbrev filterProf normRepeats removeEmo fixTyposFlag addSpacingFlag : Bool)
    (job : TranslationJobM)
    (translateSvc : Str → String → List String → List (String × String)) :
    TranslationResultM × Bool :=
  let (pt, filtered, reason) :=
    preprocess hooks expandAbbrev filterProf normRepeats removeEmo fixTyposFlag addSpacingFlag
      job.text
  if filtered then
    (⟨job.id, job.text, pt, [], "unknown", true, reason⟩, false)
  else
    let lang := (detectLang pt).getD "ko"
    let tr := translateSvc pt lang job.targetLanguages
    (⟨job.id, job.text, pt, tr, lang, false, none⟩, true)

/-! ### Helper lemmas -/

theorem hasKey_dictInsert_self (d : List (String × String)) (k v : String) :
    hasKey (dictInsert d k v) k = true := by
  induction d with
  | nil => simp [dictInsert, hasKey]
  | cons p rest ih =>
    obtain ⟨a, b⟩ := p
    by_cases h : a = k
    · simp [dictInsert, h, hasKey]
    · simpa [dictInsert, h, hasKey] using ih

theorem hasKey_cons (a b k : String) (rest : List (String × String)) :
    hasKey ((a, b) :: rest) k = (decide (a = k) || hasKey rest k) := rfl

theorem hasKey_dictInsert_of_hasKey (d : List (String × String)) (k j v : String)
    (h : hasKey d k = true) : hasKey (dictInsert d j v) k = true := by
  induction d with
  | nil => simp [hasKey] at h
  | cons p rest ih =>
    obtain ⟨a, b⟩ := p
    rw [hasKey_cons] at h
    by_cases ha : a = j
    · simp only [dictInsert, if_pos ha, hasKey_cons]
      rwa [ha] at h
    · simp only [dictInsert, if_neg ha, hasKey_cons]
      rcases (Bool.or_eq_true _ _).mp h with h1 | h1
      · exact (Bool.or_eq_true _ _).mpr (Or.inl h1)
      · exact (Bool.or_eq_true _ _).mpr (Or.inr (ih h1))

theorem ollama_foldl_hasKey (single : String → Except String String)
    (L : List String) (acc : List (String × String)) (l : String)
    (h : l ∈ L ∨ hasKey acc l = true) :
    hasKey (L.foldl (OllamaService.step single) acc) l = true := by
  induction L generalizing acc with
  | nil =>
    rcases h with h | h
    · simp at h
    · simpa using h
  | cons x L ih =>
    rw [List.foldl_cons]
    apply ih
    rcases h with h | h
    · rcases List.mem_cons.mp h with rfl | h
      · right
        cases hx : single l <;> simp [OllamaService.step, hx, hasKey_dictInsert_self]
      · left; exact h
    · right
      cases hx : single x <;>
        simp [OllamaService.step, hx, hasKey_dictInsert_of_hasKey _ _ _ _ h]

theorem cache_foldl_hasKey (single : String → Except String (String × Int × Int × Int))
    (L : List String) (acc : CacheAcc) (l : String)
    (h : l ∈ L ∨ hasKey acc.translations l = true) :
    hasKey ((L.foldl (CacheService.step single) acc).translations) l = true := by
  induction L generalizing acc with
  | nil =>
    rcases h with h | h
    · simp at h
    · simpa using h
  | cons x L ih =>
    rw [List.foldl_cons]
    apply ih
    rcases h with h | h
    · rcases List.mem_cons.mp h with rfl | h
      · right
        cases hx : single l with
        | ok v =>
          obtain ⟨t, p, q, c⟩ := v
          simp [CacheService.step, hx, hasKey_dictInsert_self]
        | error e => simp [CacheService.step, hx, hasKey_dictInsert_self]
      · left; exact h
    · right
      cases hx : single x with
      | ok v =>
        obtain ⟨t, p, q, c⟩ := v
        simp [CacheService.step, hx, hasKey_dictInsert_of_hasKey _ _ _ _ h]
      | error e => simp [CacheService.step, hx, hasKey_dictInsert_of_hasKey _ _ _ _ h]

theorem grpc_foldl_errors_length (single : String → GrpcOutcome)
    (L : List String) (acc : GrpcAcc) :
    (L.foldl (CacheServiceGRPC.step single) acc).errors.length
      = acc.errors.length + L.countP (fun l => (single l).isFail) := by
  induction L generalizing acc with
  | nil => simp
  | cons x L ih =>
    rw [List.foldl_cons, ih, List.countP_cons]
    cases hx : single x <;>
      simp [CacheServiceGRPC.step, hx, GrpcOutcome.isFail] <;> omega

/-- The timing triple of the last target language whose per-language call
succeeded, scanning a language list; `none` when every call failed. -/
def lastSuccessTimes (single : String → Except String (String × Int × Int × Int)) :
    List String → Option (Int × Int × Int)
  | [] => none
  | l :: L =>
    match lastSuccessTimes single L with
    | some t => some t
    | none =>
      match single l with
      | .ok (_, p, q, c) => some (p, q, c)
      | .error _ => none

theorem cache_foldl_times (single : String → Except String (String × Int × Int × Int))
    (L : List String) (acc : CacheAcc) :
    ((L.foldl (CacheService.step single) acc).procMs,
     (L.foldl (CacheService.step single) acc).llmMs,
     (L.foldl (CacheService.step single) acc).cacheHitMs)
      = (lastSuccessTimes single L).getD (acc.procMs, acc.llmMs, acc.cacheHitMs) := by
  induction L generalizing acc with
  | nil => simp [lastSuccessTimes]
  | cons x L ih =>
    rw [List.foldl_cons, ih]
    cases hL : lastSuccessTimes single L with
    | some t => simp [lastSuccessTimes, hL]
    | none =>
      cases hx : single x with
      | ok v =>
        obtain ⟨t, p, q, c⟩ := v
        simp [lastSuccessTimes, hL, hx, CacheService.step]
      | error e => simp [lastSuccessTimes, hL, hx, CacheService.step]

/-! ### Claim theorems -/

/-- A sample translation result used to exercise the resolution paths. -/
def sampleResult : TranslationResultM :=
  ⟨ "j1", "안녕하세요".data, "안녕하세요".data, [( "en", "hello" )], "ko", false, none⟩

/-- C1: the claim states that after a job id is claimed (moved from the
waiting list to the active list), `complete_job` respectively `fail_job`
removes it from the active list.  Evaluating the embedded code on a claimed
job shows the opposite: `complete_job` publishes the completion event and
leaves the id on the active list (the removal code is commented out in the
source), and `fail_job` raises `NameError` (its body evaluates the undefined
name `null`) before removing or publishing anything, so the id stays in
"active" in both outcomes. -/
theorem c1_resolution_never_removes_from_active :
    brpoplpush ⟨[ "j1" ], [], []⟩ = some ( "j1", ⟨[], [ "j1" ], []⟩)
  ∧ (complete_job ⟨[], [ "j1" ], []⟩ "translation-jobs" "j1" (some sampleResult)).active
      = [ "j1" ]
  ∧ fail_job ⟨[], [ "j1" ], []⟩ "translation-jobs" "j1" "boom"
      = Except.error nameErrorNull :=
  ⟨rfl, rfl, rfl⟩

/-- C2: the claim states that a claimed job whose payload fetch returns none,
or whose payload fails to decode or validate, is resolved as failed (an event
with status "failed" is published, never "completed") and the worker loop
continues.  Evaluating the embedded loop body shows the opposite: when
`get_job_data` returns `None`, `fail_job` raises `NameError` (undefined name
`null`), the exception handler's second `fail_job` call raises again and the
worker loop terminates with nothing published; when `process_bull_job`
returns `None` because the payload failed to parse or preprocessing raised,
`worker_task` publishes a completion event with status "completed" and result
null. -/
theorem c2_payload_failure_paths :
    worker_iteration ⟨[], [ "j1" ], []⟩ "translation-jobs" "j1" none ProcOutcome.parseFailed
      = Except.error nameErrorNull
  ∧ worker_iteration ⟨[], [ "j1" ], []⟩ "translation-jobs" "j1" (some "notjson")
        ProcOutcome.parseFailed
      = Except.ok ⟨[], [ "j1" ],
          [⟨ "bull:translation-results:jobId", "j1", none, "completed" ⟩]⟩ :=
  ⟨rfl, rfl⟩

/-- C3: for `CacheServiceGRPC.translate` with a non-empty target-language
list, if every per-language call fails the whole call raises
(`Exception("All translations failed: ...")`), and if at least one language
succeeds it returns the translations map without raising. -/
theorem c3_grpc_total_failure_raises (single : String → GrpcOutcome)
    (L : List String) (hne : L ≠ []) :
    ((∀ l ∈ L, (single l).isFail = true) →
        ∃ e, CacheServiceGRPC.translate single L = Except.error e)
  ∧ ((∃ l ∈ L, (single l).isFail = false) →
        ∃ acc, CacheServiceGRPC.translate single L = Except.ok acc) := by
  constructor
  · intro hall
    have hcount : L.countP (fun l => (single l).isFail) = L.length :=
      List.countP_eq_length.mpr hall
    have hlen : (L.foldl (CacheServiceGRPC.step single) ⟨[], [], -1, -1, -1⟩).errors.length
        = L.length := by
      rw [grpc_foldl_errors_length]; simpa using hcount
    refine ⟨ "All translations failed: "
        ++ joinSemicolon (L.foldl (CacheServiceGRPC.step single) ⟨[], [], -1, -1, -1⟩).errors, ?_⟩
    simp [CacheServiceGRPC.translate, hlen]
  · rintro ⟨l, hl, hok⟩
    have hle : L.countP (fun l => (single l).isFail) ≤ L.length :=
      List.countP_le_length _
    have hne2 : L.countP (fun l => (single l).isFail) ≠ L.length := by
      intro heq
      have := List.countP_eq_length.mp heq l hl
      simp [hok] at this
    have hlen : (L.foldl (CacheServiceGRPC.step single) ⟨[], [], -1, -1, -1⟩).errors.length
        ≠ L.length := by
      rw [grpc_foldl_errors_length]; simpa using hne2
    refine ⟨L.foldl (CacheServiceGRPC.step single) ⟨[], [], -1, -1, -1⟩, ?_⟩
    simp [CacheServiceGRPC.translate, hlen]

/-- Witness for C3 at concrete inputs: with both languages failing the call
raises; with "en" succeeding and "th" failing it returns. -/
theorem c3_grpc_witness :
    (∃ e, CacheServiceGRPC.translate
        (fun _ => GrpcOutcome.rpcError "UNAVAILABLE" "connection refused")
        [ "en", "th" ] = Except.error e)
  ∧ (∃ acc, CacheServiceGRPC.translate
        (fun l => if l = "en" then GrpcOutcome.ok "hello" 3 2 1
                  else GrpcOutcome.rpcError "UNAVAILABLE" "connection refused")
        [ "en", "th" ] = Except.ok acc) := by
  constructor
  · exact (c3_grpc_total_failure_raises
        (fun _ => GrpcOutcome.rpcError "UNAVAILABLE" "connection refused")
        [ "en", "th" ] (by decide)).1 (fun l _ => rfl)
  · exact (c3_grpc_total_failure_raises
        (fun l => if l = "en" then GrpcOutcome.ok "hello" 3 2 1
                  else GrpcOutcome.rpcError "UNAVAILABLE" "connection refused")
        [ "en", "th" ] (by decide)).2 ⟨ "en", by decide, by decide⟩

/-- C4: for both the local-model client (`OllamaService.translate`) and the
request/response client (`CacheService.translate`), the returned translations
map has an entry for every requested target language — a per-language failure
is stored under that language's key as a visible error marker instead of
aborting the call or omitting the key. -/
theorem c4_translations_cover_all_languages
    (singleO : String → Except String String)
    (singleC : String → Except String (String × Int × Int × Int))
    (L : List String) (l : String) (hl : l ∈ L) :
    hasKey (OllamaService.translate singleO L) l = true
  ∧ hasKey (CacheService.translate singleC L).translations l = true :=
  ⟨ollama_foldl_hasKey singleO L [] l (Or.inl hl),
   cache_foldl_hasKey singleC L ⟨[], -1, -1, -1⟩ l (Or.inl hl)⟩

/-- Witness for C4 at a concrete input: both per-language calls fail for
"th", yet an entry for "th" is present in both maps. -/
theorem c4_witness :
    hasKey (OllamaService.translate (fun _ => Except.error "boom") [ "en", "th" ]) "th" = true
  ∧ hasKey (CacheService.translate (fun _ => Except.error "boom")
      [ "en", "th" ]).translations "th" = true :=
  c4_translations_cover_all_languages (fun _ => Except.error "boom")
    (fun _ => Except.error "boom") [ "en", "th" ] "th" (by simp)

/-- C9: the timing triple returned by `CacheService.translate` is exactly the
triple of the last target language whose per-language call succeeded (earlier
successes are overwritten on each iteration, failures keep the previous
values), and when no call succeeds all three values are the initial sentinel
`-1.0`. -/
theorem c9_cache_times_last_success
    (single : String → Except String (String × Int × Int × Int)) (L : List String) :
    ((CacheService.translate single L).procMs,
     (CacheService.translate single L).llmMs,
     (CacheService.translate single L).cacheHitMs)
      = (lastSuccessTimes single L).getD (-1, -1, -1) :=
  cache_foldl_times single L ⟨[], -1, -1, -1⟩

/-- C10: with `expand_abbreviations=true`, the slang pass runs on the output
of the consonant-abbreviation pass, so substitutions cascade: the whole-word
input "ㅇㅋ" becomes "오케이" under `CONSONANT_ABBR` and then "괜찮아" under
`SLANG_DICT`, not "오케이"; through the full default pipeline the result is
"괜찮아". -/
theorem c10_abbr_slang_cascade :
    expand_abbreviations "ㅇㅋ".data = "오케이".data
  ∧ expand_slang (expand_abbreviations "ㅇㅋ".data) = "괜찮아".data
  ∧ expand_slang (expand_abbreviations "ㅇㅋ".data) ≠ "오케이".data
  ∧ preprocess idHooks true false true true true true "ㅇㅋ".data
      = ( "괜찮아".data, false, none) := by
  refine ⟨by decide, by decide, by decide, by decide⟩

/-- A concrete job carrying the jamo-only text of scenario C5. -/
def jobKkk : TranslationJobM := ⟨ "job-1", "ㅋㅋㅋㅋㅋㅋ".data, [ "en" ]⟩

/-- Counterexample to C5: with all default options (and identity external
hooks) `preprocess` does not filter "ㅋㅋㅋㅋㅋㅋ" — it returns
`filtered=false` — and `process_bull_job` therefore does call the backend
translation service for this job. -/
theorem c5_jamo_only_not_filtered :
    (preprocess idHooks true false true true true true "ㅋㅋㅋㅋㅋㅋ".data).2.1 = false
  ∧ (process_bull_job idHooks (fun _ => some "ko") true false true true true true jobKkk
       (fun _ _ langs => langs.map (fun l => (l, "ha")))).2 = true := by
  refine ⟨by decide, by decide⟩

/-- C5 (amended): the "only consonants/vowels" check exists only in the
helper `should_filter`, which does return
`(true, "Only consonants/vowels")` on "ㅋㅋㅋㅋㅋㅋ" — but `preprocess`
never invokes it (the corresponding post-stage check is commented out), so
with all defaults the text is normalized to "하하"
(`normalize_repeats` collapses the run and `CONSONANT_ABBR` expands "ㅋㅋ"),
`preprocess` returns `filtered=false`, and a backend translate call is made
for the job. -/
theorem c5_should_filter_only_helper :
    should_filter "ㅋㅋㅋㅋㅋㅋ".data = (true, some "Only consonants/vowels")
  ∧ preprocess idHooks true false true true true true "ㅋㅋㅋㅋㅋㅋ".data
      = ( "하하".data, false, none)
  ∧ (process_bull_job idHooks (fun _ => some "ko") true false true true true true jobKkk
       (fun _ _ langs => langs.map (fun l => (l, "haha")))).2 = true := by
  refine ⟨by decide, by decide, by decide⟩

/-- The 60-character text `"ab" * 30`, exceeding the configured maximum 50. -/
def abRun : Nat → Str
  | 0 => []
  | n + 1 => 'a' :: 'b' :: abRun n

/-- C6: the claim states that texts whose trimmed length is ≤ 1 and texts
longer than the configured maximum are rejected immediately with
`filtered=true`.  The source's guard is the chained comparison
`50 < len(text.strip()) < 1`, which is unsatisfiable, so the guard never
fires: evaluating the embedded pipeline, the length-1 text "a" and the
60-character text `"ab" * 30` both come out with `filtered=false`. -/
theorem c6_length_guard_unsatisfiable :
    (∀ t : Str, tooShortOrLong t = false)
  ∧ preprocess idHooks true false true true true true "a".data = ( "a".data, false, none)
  ∧ (abRun 30).length = 60
  ∧ preprocess idHooks true false true true true true (abRun 30) = (abRun 30, false, none) := by
  refine ⟨?_, by decide, by decide, by decide⟩
  intro t
  simp only [tooShortOrLong, Bool.and_eq_false_imp, decide_eq_true_eq, decide_eq_false_iff_not]
  omega

/-- C7: the claim states that with `fix_typos=true` the pipeline's fixed-table
typo pass turns "됬어요" into "됐어요" regardless of the external
spell-correction normalizer.  The `fix_typos` method does exactly that — its
`TYPO_PATTERNS` pass runs after the symspell word pass, both without a
loaded symspell model and with any model that leaves the word unchanged —
but `preprocess` never calls it (the stage is commented out in the source),
so with `fix_typos=true` and identity external hooks the pipeline output is
still "됬어요". -/
theorem c7_fix_typos_stage_skipped :
    preprocess idHooks true false true true true true "됬어요".data
      = ( "됬어요".data, false, none)
  ∧ fix_typos none "됬어요".data = "됐어요".data
  ∧ (∀ f : Str → Str, f "됬어요".data = "됬어요".data →
      fix_typos (some f) "됬어요".data = "됐어요".data) := by
  refine ⟨by decide, by decide, ?_⟩
  intro f hf
  have hs : splitWs "됬어요".data = [ "됬어요".data ] := by decide
  have hany : ( "됬어요".data.any fun c => isHangulSyl c) = true := by decide
  simp only [fix_typos, hs, List.map_cons, List.map_nil, hany, if_true, hf]
  decide

/-- Witness for C7 with the identity word corrector. -/
theorem c7_witness : fix_typos (some fun w => w) "됬어요".data = "됐어요".data :=
  c7_fix_typos_stage_skipped.2.2 (fun w => w) rfl

/-- External hooks whose spacing normalizer splits "오늘날씨가좋네요" into
"오늘 날씨가 좋네요", as a spacing corrector would. -/
def splitHooks : KssHooks :=
  ⟨fun _ => "오늘 날씨가 좋네요".data, fun t => some [t]⟩

/-- Counterexample to C8: when the external spacing normalizer separates the
pair, the output of the pipeline's spacing stage (and of the whole pipeline)
is "오늘 날씨가 좋네요" and does not contain the joined token "오늘날씨" —
`preprocess` calls `kss.correct_spacing` directly and applies no
protect-pattern pass. -/
theorem c8_pipeline_spacing_no_protect :
    preprocess splitHooks true false true true true true "오늘날씨가좋네요".data
      = ( "오늘 날씨가 좋네요".data, false, none)
  ∧ containsSub "오늘날씨".data "오늘 날씨가 좋네요".data = false := by
  refine ⟨by decide, by decide⟩

/-- C8 (amended): the protect-pattern re-join lives in the `add_spacing`
method: with a spacing model that splits the pair, `add_spacing` produces
"오늘날씨가 좋네요", which contains the joined token "오늘날씨".  But
`preprocess` does not invoke `add_spacing` (the call is commented out in the
source); it applies `kss.correct_spacing` directly, so the pipeline keeps the
normalizer's split "오늘 날씨". -/
theorem c8_add_spacing_method_rejoins :
    add_spacing (some fun _ => "오늘 날씨가 좋네요".data) "오늘날씨가좋네요".data
      = "오늘날씨가 좋네요".data
  ∧ containsSub "오늘날씨".data
      (add_spacing (some fun _ => "오늘 날씨가 좋네요".data) "오늘날씨가좋네요".data) = true
  ∧ preprocess splitHooks true false true true true true "오늘날씨가좋네요".data
      = ( "오늘 날씨가 좋네요".data, false, none) := by
  refine ⟨by decide, by decide, by decide⟩

end ChatWorker
